import Mathlib

/-!
Shallow embedding of the clawbang build-cache-and-replay program
(`src/main.rs`) and proofs checking its specification claims.

Conventions: Rust byte strings are modelled as `List Nat` (each entry a
byte), Rust `&str` text as `List Char`, machine integers as `Nat`/`Int`
with explicit wrap-around where it matters, and fallible code as
`Except`/`Option`.  External collaborators (the `cacache` store interface,
the TOML parser, the `cargo` child process) are modelled at the interface
the specification gives for them; everything else is translated directly
from the source.
-/

set_option maxRecDepth 100000

/-! ### SHA-256 (the `sha2` crate's function used by `get_key`, and the
content hashing of the store) -/

def add32 (a b : Nat) : Nat := (a + b) % 4294967296

def xor32 (a b : Nat) : Nat := Nat.xor a b

def and32 (a b : Nat) : Nat := Nat.land a b

def not32 (a : Nat) : Nat := Nat.xor a 4294967295

def shr32 (k x : Nat) : Nat := x / 2 ^ k

def rotr32 (k x : Nat) : Nat := (x / 2 ^ k + (x % 2 ^ k) * 2 ^ (32 - k)) % 4294967296

def ssig0 (x : Nat) : Nat := xor32 (xor32 (rotr32 7 x) (rotr32 18 x)) (shr32 3 x)

def ssig1 (x : Nat) : Nat := xor32 (xor32 (rotr32 17 x) (rotr32 19 x)) (shr32 10 x)

def bsig0 (x : Nat) : Nat := xor32 (xor32 (rotr32 2 x) (rotr32 13 x)) (rotr32 22 x)

def bsig1 (x : Nat) : Nat := xor32 (xor32 (rotr32 6 x) (rotr32 11 x)) (rotr32 25 x)

def chF (e f g : Nat) : Nat := xor32 (and32 e f) (and32 (not32 e) g)

def majF (a b c : Nat) : Nat := xor32 (xor32 (and32 a b) (and32 a c)) (and32 b c)

def kTable : List Nat :=
  [1116352408, 1899447441, 3049323471, 3921009573, 961987163, 1508970993,
   2453635748, 2870763221, 3624381080, 310598401, 607225278, 1426881987,
   1925078388, 2162078206, 2614888103, 3248222580, 3835390401, 4022224774,
   264347078, 604807628, 770255983, 1249150122, 1555081692, 1996064986,
   2554220882, 2821834349, 2952996808, 3210313671, 3336571891, 3584528711,
   113926993, 338241895, 666307205, 773529912, 1294757372, 1396182291,
   1695183700, 1986661051, 2177026350, 2456956037, 2730485921, 2820302411,
   3259730800, 3345764771, 3516065817, 3600352804, 4094571909, 275423344,
   430227734, 506948616, 659060556, 883997877, 958139571, 1322822218,
   1537002063, 1747873779, 1955562222, 2024104815, 2227730452, 2361852424,
   2428436474, 2756734187, 3204031479, 3329325298]

structure Regs where
  ra : Nat
  rb : Nat
  rc : Nat
  rd : Nat
  re : Nat
  rf : Nat
  rg : Nat
  rh : Nat

def initRegs : Regs :=
  ⟨1779033703, 3144134277, 1013904242, 2773480762, 1359893119, 2600822924, 528734635, 1541459225⟩

def be32val (l : List Nat) : Nat := l.foldl (fun acc b => acc * 256 + b) 0

def bytesToWords : Nat → List Nat → List Nat
  | 0, _ => []
  | n + 1, l => be32val (l.take 4) :: bytesToWords n (l.drop 4)

def scheduleStep (w : List Nat) : List Nat :=
  let t := w.length
  w ++ [add32 (add32 (ssig1 (w.getD (t - 2) 0)) (w.getD (t - 7) 0))
              (add32 (ssig0 (w.getD (t - 15) 0)) (w.getD (t - 16) 0))]

def buildW : Nat → List Nat → List Nat
  | 0, w => w
  | n + 1, w => buildW n (scheduleStep w)

def roundStep (r : Regs) (kw : Nat × Nat) : Regs :=
  let t1 := add32 (add32 (add32 r.rh (bsig1 r.re)) (add32 (chF r.re r.rf r.rg) kw.1)) kw.2
  let t2 := add32 (bsig0 r.ra) (majF r.ra r.rb r.rc)
  ⟨add32 t1 t2, r.ra, r.rb, r.rc, add32 r.rd t1, r.re, r.rf, r.rg⟩

def addRegs (x y : Regs) : Regs :=
  ⟨add32 x.ra y.ra, add32 x.rb y.rb, add32 x.rc y.rc, add32 x.rd y.rd,
   add32 x.re y.re, add32 x.rf y.rf, add32 x.rg y.rg, add32 x.rh y.rh⟩

def compress (r : Regs) (block : List Nat) : Regs :=
  let w := buildW 48 (bytesToWords 16 block)
  addRegs r ((kTable.zip w).foldl roundStep r)

def processBlocks : Nat → List Nat → Regs → Regs
  | 0, _, r => r
  | n + 1, msg, r => processBlocks n (msg.drop 64) (compress r (msg.take 64))

def be64bytes (n : Nat) : List Nat :=
  [n / 2 ^ 56 % 256, n / 2 ^ 48 % 256, n / 2 ^ 40 % 256, n / 2 ^ 32 % 256,
   n / 2 ^ 24 % 256, n / 2 ^ 16 % 256, n / 2 ^ 8 % 256, n % 256]

def be32bytes (n : Nat) : List Nat :=
  [n / 2 ^ 24 % 256, n / 2 ^ 16 % 256, n / 2 ^ 8 % 256, n % 256]

def shaPad (msg : List Nat) : List Nat :=
  msg ++ 128 :: List.replicate ((64 - (msg.length + 9) % 64) % 64) 0 ++ be64bytes (8 * msg.length)

def regsToBytes (r : Regs) : List Nat :=
  be32bytes r.ra ++ be32bytes r.rb ++ be32bytes r.rc ++ be32bytes r.rd ++
  be32bytes r.re ++ be32bytes r.rf ++ be32bytes r.rg ++ be32bytes r.rh

def sha256 (msg : List Nat) : List Nat :=
  regsToBytes (processBlocks ((shaPad msg).length / 64) (shaPad msg) initRegs)

def hexDigit (n : Nat) : Char := if n < 10 then Char.ofNat (48 + n) else Char.ofNat (87 + n)

def hexEncode (bytes : List Nat) : List Char :=
  bytes.foldr (fun b acc => hexDigit (b / 16) :: hexDigit (b % 16) :: acc) []

def utf8Char (c : Char) : List Nat :=
  let n := c.toNat
  if n < 128 then [n]
  else if n < 2048 then [192 + n / 64, 128 + n % 64]
  else if n < 65536 then [224 + n / 4096, 128 + n / 64 % 64, 128 + n % 64]
  else [240 + n / 262144, 128 + n / 4096 % 64, 128 + n / 64 % 64, 128 + n % 64]

def utf8Encode (s : List Char) : List Nat := s.foldr (fun c acc => utf8Char c ++ acc) []

/-- Function `get_key` from `src/main.rs`: the fingerprint is the lowercase hex encoding
of the SHA-256 digest of the raw input bytes, with no normalization. -/
def get_key (input : List Char) : List Char := hexEncode (sha256 (utf8Encode input))

/-! ### Text utilities mirroring the Rust `str` operations used by
`populate_cache` -/

/-- Rust `char::is_whitespace` (the Unicode White_Space property), used by
`str::trim`. -/
def rustIsWs (c : Char) : Bool :=
  let n := c.toNat
  n = 0x9 || n = 0xA || n = 0xB || n = 0xC || n = 0xD || n = 0x20 || n = 0x85 || n = 0xA0 ||
  n = 0x1680 || (0x2000 ≤ n && n ≤ 0x200A) || n = 0x2028 || n = 0x2029 || n = 0x202F ||
  n = 0x205F || n = 0x3000

/-- Rust `str::trim`: strip leading and trailing whitespace. -/
def rustTrim (l : List Char) : List Char :=
  ((l.dropWhile rustIsWs).reverse.dropWhile rustIsWs).reverse

/-- Here `hasPre pat l` is Rust `l.starts_with(pat)`. -/
def hasPre : List Char → List Char → Bool
  | [], _ => true
  | _ :: _, [] => false
  | a :: as, b :: bs => if a = b then hasPre as bs else false

/-- Rust `source[source.find("\n").unwrap() + 1..]`, with `none` standing for
the `unwrap` panic when the source holds no newline. -/
def afterFirstNewline : List Char → Option (List Char)
  | [] => none
  | c :: cs => if c = '\n' then some cs else afterFirstNewline cs

/-- Rust `str::find(pat)`: index of the first occurrence of `pat`, if any. -/
def firstOccur (pat : List Char) : List Char → Option Nat
  | [] => if pat = [] then some 0 else none
  | c :: cs => if hasPre pat (c :: cs) then some 0 else (firstOccur pat cs).map (· + 1)

/-- Split on newline characters, giving the lines of a text (used only to state
the specification's notion of a close-delimiter line). -/
def linesOf : List Char → List (List Char)
  | [] => [[]]
  | c :: cs =>
    if c = '\n' then [] :: linesOf cs
    else
      match linesOf cs with
      | h :: t => (c :: h) :: t
      | [] => [[c]]

/-! ### Shebang stripping and frontmatter extraction (`populate_cache`,
`src/main.rs` lines 156-167) -/

inductive PipeErr where
  /-- the `source.find("\n").unwrap()` panic when a shebang source has no
  newline -/
  | panicNoNewline
  /-- the error "Hit EOF before finding end of frontmatter delimeter" -/
  | frontmatterEOF
  /-- a `toml::from_str` failure on the frontmatter text -/
  | tomlParseError
  /-- the `.as_table_mut().unwrap()` panic when the `package` key holds a
  non-table value -/
  | panicPackageNotTable
  /-- the `?`-propagated failure opening `target/release/bin` -/
  | buildArtifactMissing
  /-- a `cacache` read failure on the replay path -/
  | storeError
deriving DecidableEq

def openDelim : List Char := ('+' :: '+' :: '+' :: '\n' :: [])

def closeDelim : List Char := ('\n' :: '+' :: '+' :: '+' :: '\n' :: [])

def shebangMark : List Char := ('#' :: '!' :: [])

/-- The shebang-stripping stage: `if source.trim().starts_with("#!") {
source[source.find("\n").unwrap() + 1..].trim() } else { source.trim() }`. -/
def stripShebang (source : List Char) : Except PipeErr (List Char) :=
  if hasPre shebangMark (rustTrim source) then
    match afterFirstNewline source with
    | none => .error .panicNoNewline
    | some rest => .ok (rustTrim rest)
  else
    .ok (rustTrim source)

/-- The frontmatter-splitting stage on the shebang-stripped text `trimmed`:
`if trimmed.starts_with("+++\n") { let offset = trimmed[4..].find("\n+++\n")
... (&trimmed[4..offset + 4], &trimmed[offset + 9..]) } else
{ (&trimmed[0..0], &trimmed[0..]) }`. -/
def splitFrontmatter (trimmed : List Char) : Except PipeErr (List Char × List Char) :=
  if hasPre openDelim trimmed then
    match firstOccur closeDelim (trimmed.drop 4) with
    | none => .error .frontmatterEOF
    | some offset => .ok ((trimmed.drop 4).take offset, (trimmed.drop 4).drop (offset + 5))
  else
    .ok ([], trimmed)

/-- Combined source-body extraction: shebang stripping followed by frontmatter
splitting, yielding (frontmatter text, source body). -/
def extractSource (source : List Char) : Except PipeErr (List Char × List Char) :=
  match stripShebang source with
  | .error e => .error e
  | .ok trimmed => splitFrontmatter trimmed

/-! ### The TOML value model and the manifest merge
(`populate_cache`, `src/main.rs` lines 169-177) -/

inductive Toml where
  | str (s : String)
  | int (n : Int)
  | boolean (b : Bool)
  | table (kvs : List (String × Toml))

def TomlTable := List (String × Toml)

def lookupT : List (String × Toml) → String → Option Toml
  | [], _ => none
  | (k0, v0) :: rest, k => if k0 = k then some v0 else lookupT rest k

def insertT : List (String × Toml) → String → Toml → List (String × Toml)
  | [], k, v => [(k, v)]
  | (k0, v0) :: rest, k, v =>
    if k0 = k then (k0, v) :: rest else (k0, v0) :: insertT rest k v

def pkgKey : String := "package"

def nameKey : String := "name"

def versionKey : String := "version"

def editionKey : String := "edition"

def binName : String := "bin"

def binVersion : String := "0.0.1"

def binEdition : String := "2021"

/-- The manifest merge: `tbl.entry("package").or_insert(Table(new)).
as_table_mut().unwrap()` followed by inserting the fixed `name`, `version` and
`edition` values.  `.error ()` models the `unwrap` panic hit when the caller
supplied a non-table `package` value. -/
def mergeManifest (tbl : List (String × Toml)) : Except Unit (List (String × Toml)) :=
  match lookupT tbl pkgKey with
  | none =>
    .ok (insertT tbl pkgKey (.table (fixPkg [])))
  | some (.table pkg) =>
    .ok (insertT tbl pkgKey (.table (fixPkg pkg)))
  | some _ => .error ()
where
  fixPkg (pkg : List (String × Toml)) : List (String × Toml) :=
    insertT (insertT (insertT pkg nameKey (.str binName)) versionKey (.str binVersion))
      editionKey (.str binEdition)

/-! ### Exit-status normalization (`main` lines 130-135 and `populate_cache`
lines 213-218) -/

/-- The `subprocess::ExitStatus` type: `Exited` carries a `u32`, `Signaled` a
`u8`, `Other` an `i32`. -/
inductive ExitStatus where
  | Exited (xs : Nat)
  | Signaled (xs : Nat)
  | Other (xs : Int)
  | Undetermined
deriving DecidableEq

/-- Rust `xs as i32` applied to a `u32`: two's-complement reinterpretation. -/
def u32AsI32 (n : Nat) : Int :=
  if n % 4294967296 < 2147483648 then ((n % 4294967296 : Nat) : Int)
  else ((n % 4294967296 : Nat) : Int) - 4294967296

/-- The Executor's mapping in `main`: `Exited(xs) => xs as i32, Signaled(xs)
=> xs as i32, Other(xs) => xs, Undetermined => -1`. -/
def executorCode : ExitStatus → Int
  | .Exited xs => u32AsI32 xs
  | .Signaled xs => ((xs % 256 : Nat) : Int)
  | .Other xs => xs
  | .Undetermined => -1

/-- The Build Invoker's normalization in `populate_cache`:
`Some(Exited(xs)) => xs as i32, Some(Signaled(xs)) => xs as i32,
Some(Other(xs)) => xs, _ => 1`. -/
def invokerCode : Option ExitStatus → Int
  | some (.Exited xs) => u32AsI32 xs
  | some (.Signaled xs) => ((xs % 256 : Nat) : Int)
  | some (.Other xs) => xs
  | _ => 1

/-! ### The `Tee` dual-destination writer (`src/main.rs` lines 39-66) -/

/-- Structure `Tee` over an inner sink state `σ`: an accumulator plus the inner writer. -/
structure Tee (σ : Type) where
  accum : List Nat
  inner : σ

/-- One `write` call: `self.accum.extend(bytes); self.inner.write(bytes)`.
`w` is the inner sink's `write` (new state and the count it accepted). -/
def teeWrite {σ : Type} (w : σ → List Nat → σ × Nat) (t : Tee σ) (bytes : List Nat) :
    Tee σ × Nat :=
  let r := w t.inner bytes
  (⟨t.accum ++ bytes, r.1⟩, r.2)

/-- A sequence of `write` calls, in order. -/
def teeWriteAll {σ : Type} (w : σ → List Nat → σ × Nat) (t : Tee σ) :
    List (List Nat) → Tee σ
  | [] => t
  | b :: bs => teeWriteAll w (teeWrite w t b).1 bs

/-- The pass-through sink the program uses (`std::io::sink()` accepts every
byte; the state records the bytes the sink has received, in order). -/
def sinkRecv (s : List Nat) (bytes : List Nat) : List Nat × Nat :=
  (s ++ bytes, bytes.length)

/-! ### The content-addressed store

Modelled from the spec: the store itself is the external `cacache` crate, so
its interface follows §4.2 of the specification — lookup and write by an
explicit key, write by content hash, and `read(root, key_or_hash)` accepting
either namespace.  Keys, content hashes and blobs are explicit. -/

/-- The metadata record serialized into the cache entry (`CacheEntry` in
`src/main.rs`). -/
structure CacheEntry where
  output_id : List Char
  exit_code : Int
deriving DecidableEq

/-- One stored entry under an explicit key: the metadata plus the data blob. -/
structure CacheRec where
  meta : CacheEntry
  data : List Nat
deriving DecidableEq

/-- The store: the key-indexed namespace and the content-hash namespace. -/
structure Store where
  byKey : List Char → Option CacheRec
  byHash : List Char → Option (List Nat)

def emptyStore : Store := ⟨fun _ => none, fun _ => none⟩

/-- The content hash identifier `cacache::write_hash_sync` derives from a
blob's own bytes. -/
def contentId (bytes : List Nat) : List Char := hexEncode (sha256 bytes)

/-- Operation `cacache::write_hash_sync`: store a blob under its own content hash. -/
def writeHash (store : Store) (bytes : List Nat) : Store :=
  { store with byHash := fun h => if h = contentId bytes then some bytes else store.byHash h }

/-- Operation `WriteOpts::open_sync(..).commit()`: store a blob with metadata under an
explicit key, overwriting any prior entry. -/
def write_by_key (store : Store) (key : List Char) (meta : CacheEntry) (data : List Nat) :
    Store :=
  { store with byKey := fun k => if k = key then some ⟨meta, data⟩ else store.byKey k }

/-- Operation `read(root, key_or_hash)` (spec §4.2): the full stored blob for a key or a
content hash, `none` when absent. -/
def readStore (store : Store) (id : List Char) : Option (List Nat) :=
  match store.byKey id with
  | some r => some r.data
  | none => store.byHash id

/-! ### The miss-path orchestration (`populate_cache`) and the per-invocation
driver (`main`) -/

/-- What one external `cargo build --release` invocation leaves behind: the
merged stdout/stderr byte stream, the child's termination status
(`none` = `poll`/`exit_status` yielded nothing), and the bytes present at
`target/release/bin` (`none` = no file at that path). -/
structure BuildResult where
  log : List Nat
  status : Option ExitStatus
  artifact : Option (List Nat)

/-- The external collaborators of one invocation: the TOML parser applied to
the frontmatter text, and the compiler child process run against the staged
manifest and source body. -/
structure BuildEnv where
  parseToml : List Char → Option (List (String × Toml))
  compile : List (String × Toml) → List Char → BuildResult

/-- Function `populate_cache` from `src/main.rs`: extract, parse and merge the
manifest, stage, invoke the compiler, commit the captured log by content
hash, then read `target/release/bin` and commit it under the fingerprint key.
Returns the updated store, the number of compiler spawns performed (0 or 1),
and the artifact bytes or the error.  The order of effects follows the
source: the log is committed before the artifact file is opened, and the
write-by-key commit happens only after that open succeeds. -/
def populate_cache (env : BuildEnv) (store : Store) (cache_key : List Char)
    (source : List Char) : Store × Nat × Except PipeErr (List Nat) :=
  match extractSource source with
  | .error e => (store, 0, .error e)
  | .ok (frontmatter, rust_src) =>
    match env.parseToml frontmatter with
    | none => (store, 0, .error .tomlParseError)
    | some tbl =>
      match mergeManifest tbl with
      | .error _ => (store, 0, .error .panicPackageNotTable)
      | .ok cargo_toml =>
        let build := env.compile cargo_toml rust_src
        let exit_code := invokerCode build.status
        let store1 := writeHash store build.log
        let output_id := contentId build.log
        match build.artifact with
        | none => (store1, 1, .error .buildArtifactMissing)
        | some bytes =>
          (write_by_key store1 cache_key ⟨output_id, exit_code⟩ bytes, 1, .ok bytes)

/-- What one whole invocation ends in, seen from `main`'s dispatch. -/
inductive Outcome where
  /-- miss path: the freshly built workspace binary is handed to the Executor -/
  | execFresh (artifact : List Nat)
  /-- hit with `exit_code == 0`: the cached blob is copied out, marked
  executable and handed to the Executor -/
  | execReplayed (artifact : List Nat)
  /-- hit with `exit_code != 0`: the log is written to stderr and the process
  exits with the stored code -/
  | replayFailure (log : List Nat) (code : Int)
  /-- the `Result` error path of `main` (tool failure) -/
  | fatal (e : PipeErr)
deriving DecidableEq

structure RunResult where
  store : Store
  spawns : Nat
  outcome : Outcome

/-- One invocation of the program on a source text (`main`,
`src/main.rs` lines 79-135): fingerprint, store lookup, then replay or
populate. -/
def main_once (env : BuildEnv) (store : Store) (source : List Char) : RunResult :=
  let cache_key := get_key source
  match store.byKey cache_key with
  | some r =>
    if r.meta.exit_code = 0 then
      ⟨store, 0, .execReplayed r.data⟩
    else
      match readStore store r.meta.output_id with
      | some build_output => ⟨store, 0, .replayFailure build_output r.meta.exit_code⟩
      | none => ⟨store, 0, .fatal .storeError⟩
  | none =>
    match populate_cache env store cache_key source with
    | (s, n, .ok artifact) => ⟨s, n, .execFresh artifact⟩
    | (s, n, .error e) => ⟨s, n, .fatal e⟩

/-! ### Concrete instances used by the closed theorems and witnesses -/

/-- A compiler log used in the concrete scenarios. -/
def logOk : List Nat := [67, 111, 109, 112, 105, 108, 105, 110, 103]

/-- An artifact byte blob used in the concrete scenarios. -/
def artifactOk : List Nat := [127, 69, 76, 70, 2, 1]

/-- An environment whose compiler succeeds (exit 0) and leaves `artifactOk`
at the expected output path; the TOML parser accepts exactly the empty
frontmatter (an empty document parses to the empty table). -/
def envOk : BuildEnv where
  parseToml := fun fm => if fm = [] then some [] else none
  compile := fun _ _ => ⟨logOk, some (.Exited 0), some artifactOk⟩

/-- A compiler diagnostic log used in the failed-build scenarios. -/
def logErr : List Nat := [101, 114, 114, 111, 114, 91, 69, 48, 93]

/-- An environment whose compiler fails (exit 101) and produces no artifact
at the expected output path. -/
def envFail : BuildEnv where
  parseToml := fun fm => if fm = [] then some [] else none
  compile := fun _ _ => ⟨logErr, some (.Exited 101), none⟩

/-- A plain script: no shebang, no frontmatter. -/
def srcPlain : String := "fn main() say 7"

/-- A script that does not build (used with `envFail`). -/
def srcBroken : String := "fn main( 7"

/-- A script whose frontmatter open delimiter is never closed. -/
def srcNoClose : String := "+++\nx"

/-- A script whose frontmatter close line immediately follows the open line:
line 2 consists solely of `+++`, yet the program rejects it. -/
def srcEmptyFm : String := "+++\n+++\nrest"

/-! ### Helper lemmas -/

theorem hasPre_append (pat : List Char) :
    ∀ l, hasPre pat l = true → pat ++ l.drop pat.length = l := by
  induction pat with
  | nil => intro l _; simp
  | cons a as ih =>
    intro l h
    cases l with
    | nil => simp [hasPre] at h
    | cons b bs =>
      simp only [hasPre] at h
      by_cases hab : a = b
      · subst hab
        rw [if_pos rfl] at h
        have h2 := ih bs h
        simpa using h2
      · rw [if_neg hab] at h
        exact absurd h (by simp)

theorem firstOccur_hasPre (pat : List Char) :
    ∀ l i, firstOccur pat l = some i → hasPre pat (l.drop i) = true := by
  intro l
  induction l with
  | nil =>
    intro i h
    simp only [firstOccur] at h
    by_cases hp : pat = []
    · subst hp
      simp [hasPre]
    · rw [if_neg hp] at h
      exact absurd h (by simp)
  | cons c cs ih =>
    intro i h
    simp only [firstOccur] at h
    by_cases hp : hasPre pat (c :: cs) = true
    · rw [if_pos hp] at h
      have : i = 0 := by
        have := h
        simp at this
        omega
      subst this
      simpa using hp
    · rw [if_neg hp] at h
      cases hfo : firstOccur pat cs with
      | none => rw [hfo] at h; exact absurd h (by simp)
      | some j =>
        rw [hfo] at h
        simp at h
        subst h
        have := ih j hfo
        simpa using this

theorem firstOccur_decomp (pat l : List Char) (i : Nat) (h : firstOccur pat l = some i) :
    l.take i ++ pat ++ l.drop (i + pat.length) = l := by
  have h1 := firstOccur_hasPre pat l i h
  have h2 := hasPre_append pat (l.drop i) h1
  calc l.take i ++ pat ++ l.drop (i + pat.length)
      = l.take i ++ (pat ++ (l.drop i).drop pat.length) := by
        rw [List.drop_drop]
        simp [List.append_assoc, Nat.add_comm]
    _ = l.take i ++ l.drop i := by rw [h2]
    _ = l := List.take_append_drop i l

theorem firstOccur_min (pat : List Char) :
    ∀ l i, firstOccur pat l = some i → ∀ j, j < i → hasPre pat (l.drop j) = false := by
  intro l
  induction l with
  | nil =>
    intro i h j hj
    simp only [firstOccur] at h
    by_cases hp : pat = []
    · rw [if_pos hp] at h
      simp at h
      omega
    · rw [if_neg hp] at h
      exact absurd h (by simp)
  | cons c cs ih =>
    intro i h j hj
    simp only [firstOccur] at h
    by_cases hp : hasPre pat (c :: cs) = true
    · rw [if_pos hp] at h
      simp at h
      omega
    · rw [if_neg hp] at h
      cases hfo : firstOccur pat cs with
      | none => rw [hfo] at h; exact absurd h (by simp)
      | some k =>
        rw [hfo] at h
        simp at h
        subst h
        cases j with
        | zero => simpa using hp
        | succ j0 =>
          have := ih k hfo j0 (by omega)
          simpa using this

theorem firstOccur_none (pat : List Char) :
    ∀ l, firstOccur pat l = none → ∀ j, hasPre pat (l.drop j) = false := by
  intro l
  induction l with
  | nil =>
    intro h j
    simp only [firstOccur] at h
    by_cases hp : pat = []
    · rw [if_pos hp] at h; exact absurd h (by simp)
    · cases pat with
      | nil => exact absurd rfl hp
      | cons a as => simp [hasPre]
  | cons c cs ih =>
    intro h j
    simp only [firstOccur] at h
    by_cases hp : hasPre pat (c :: cs) = true
    · rw [if_pos hp] at h; exact absurd h (by simp)
    · rw [if_neg hp] at h
      cases hfo : firstOccur pat cs with
      | some k => rw [hfo] at h; exact absurd h (by simp)
      | none =>
        cases j with
        | zero => simpa using hp
        | succ j0 =>
          have := ih hfo j0
          simpa using this

theorem lookupT_insertT_self (k : String) (v : Toml) :
    ∀ l, lookupT (insertT l k v) k = some v := by
  intro l
  induction l with
  | nil => simp [insertT, lookupT]
  | cons p rest ih =>
    by_cases hk : p.1 = k
    · cases p
      simp_all [insertT, lookupT]
    · cases p
      simp_all [insertT, lookupT]

theorem lookupT_insertT_ne (k k2 : String) (v : Toml) (hne : k2 ≠ k) :
    ∀ l, lookupT (insertT l k v) k2 = lookupT l k2 := by
  have hkk2 : ¬ k = k2 := fun h => hne h.symm
  intro l
  induction l with
  | nil => simp [insertT, lookupT, hkk2]
  | cons p rest ih =>
    cases p with
    | mk k0 v0 =>
      by_cases hk : k0 = k
      · subst hk
        simp only [insertT, if_pos rfl, lookupT]
        rw [if_neg hkk2, if_neg hkk2]
      · simp only [insertT, if_neg hk, lookupT]
        rw [ih]

/-! ### Claim theorems -/

/-- C9 counterexample: the Executor's mapping and the Build Invoker's
normalization are not the same function — on an indeterminate termination
the Executor (`main`) produces the sentinel `-1`, while the Build Invoker
(`populate_cache`) produces `1`. -/
theorem c9_counterexample : executorCode .Undetermined ≠ invokerCode (some .Undetermined) := by
  decide

/-- C9 (amended): the Executor's mapping (`main`) and the Build Invoker's
normalization (`populate_cache`) agree on normal exits, signal terminations
and `Other` statuses, but their sentinels for an indeterminate termination
differ: the Executor yields `-1` while the Build Invoker yields `1`. -/
theorem c9_amended : ∀ (n m : Nat) (k : Int),
    executorCode (.Exited n) = invokerCode (some (.Exited n)) ∧
    executorCode (.Signaled m) = invokerCode (some (.Signaled m)) ∧
    executorCode (.Other k) = invokerCode (some (.Other k)) ∧
    executorCode .Undetermined = -1 ∧
    invokerCode (some .Undetermined) = 1 ∧
    invokerCode none = 1 := by
  intro n m k
  exact ⟨rfl, rfl, rfl, rfl, rfl, rfl⟩

theorem teeWriteAll_sink (chunks : List (List Nat)) :
    ∀ t : Tee (List Nat), teeWriteAll sinkRecv t chunks =
      ⟨t.accum ++ chunks.flatten, t.inner ++ chunks.flatten⟩ := by
  induction chunks with
  | nil => intro t; cases t; simp [teeWriteAll]
  | cons b bs ih =>
    intro t
    simp only [teeWriteAll, teeWrite, sinkRecv]
    rw [ih]
    simp [List.append_assoc]

/-- C10: for every sequence of write calls to the `Tee` writer backed by the
program's pass-through sink, the accumulator holds exactly the concatenation
of all written bytes in production order, and the inner sink receives exactly
the same bytes in the same order. -/
theorem c10_tee_order (chunks : List (List Nat)) :
    (teeWriteAll sinkRecv ⟨[], []⟩ chunks).accum = chunks.flatten ∧
    (teeWriteAll sinkRecv ⟨[], []⟩ chunks).inner = chunks.flatten := by
  rw [teeWriteAll_sink]
  exact ⟨by simp, by simp⟩

/-- C7 counterexample: a well-formed frontmatter configuration (its top level
is a key-value mapping) whose `package` key holds a string makes the merge
panic (`as_table_mut().unwrap()` on a non-table), so no manifest containing
the fixed fields is produced; at whole-program level the run dies with the
panic instead of building. -/
theorem c7_counterexample : mergeManifest [(pkgKey, .str binName)] = .error () := rfl

/-- C7 (amended): for every caller-supplied configuration whose top-level
`package` key is absent or holds a table, the merged manifest's `package`
table carries the fixed name `bin`, version `0.0.1` and edition `2021`,
silently overriding any caller-supplied values for those fields; a
non-table `package` value instead panics. -/
theorem c7_amended (tbl pkg : List (String × Toml))
    (h : lookupT tbl pkgKey = none ∧ pkg = [] ∨ lookupT tbl pkgKey = some (.table pkg)) :
    ∃ pkgF, mergeManifest tbl = .ok (insertT tbl pkgKey (.table pkgF)) ∧
      lookupT pkgF nameKey = some (.str binName) ∧
      lookupT pkgF versionKey = some (.str binVersion) ∧
      lookupT pkgF editionKey = some (.str binEdition) := by
  refine ⟨mergeManifest.fixPkg pkg, ?_, ?_, ?_, ?_⟩
  · rcases h with ⟨h1, h2⟩ | h1
    · subst h2
      simp only [mergeManifest, h1]
    · simp only [mergeManifest, h1]
  · simp only [mergeManifest.fixPkg]
    rw [lookupT_insertT_ne _ _ _ (by decide), lookupT_insertT_ne _ _ _ (by decide),
      lookupT_insertT_self]
  · simp only [mergeManifest.fixPkg]
    rw [lookupT_insertT_ne _ _ _ (by decide), lookupT_insertT_self]
  · simp only [mergeManifest.fixPkg]
    rw [lookupT_insertT_self]

/-- Witness for C7 (amended), at the specification's own example: a
frontmatter that sets the package name to a custom value still yields the
fixed name, version and edition. -/
theorem c7_amended_witness :
    ∃ pkgF,
      mergeManifest [(pkgKey, .table [(nameKey, .str ("custom"))])] =
        .ok (insertT [(pkgKey, .table [(nameKey, .str ("custom"))])] pkgKey (.table pkgF)) ∧
      lookupT pkgF nameKey = some (.str binName) ∧
      lookupT pkgF versionKey = some (.str binVersion) ∧
      lookupT pkgF editionKey = some (.str binEdition) :=
  c7_amended [(pkgKey, .table [(nameKey, .str ("custom"))])] [(nameKey, .str ("custom"))]
    (Or.inr rfl)

/-- On a miss whose build leaves no artifact at `target/release/bin`,
`populate_cache` commits the log blob by content hash, then fails opening the
artifact, returning the artifact-missing error with one compiler spawn. -/
theorem populate_cache_missing (env : BuildEnv) (store : Store)
    (cache_key source fm body : List Char) (tbl m : List (String × Toml))
    (hx : extractSource source = .ok (fm, body))
    (hp : env.parseToml fm = some tbl)
    (hm : mergeManifest tbl = .ok m)
    (hb : (env.compile m body).artifact = none) :
    populate_cache env store cache_key source =
      (writeHash store (env.compile m body).log, 1, .error .buildArtifactMissing) := by
  simp only [populate_cache, hx, hp, hm, hb]

/-- On a miss whose build leaves `bytes` at `target/release/bin`,
`populate_cache` commits the log by content hash and then the artifact under
the fingerprint key with metadata `{output_id, exit_code}`, with one spawn. -/
theorem populate_cache_commit (env : BuildEnv) (store : Store)
    (cache_key source fm body : List Char) (tbl m : List (String × Toml)) (bytes : List Nat)
    (hx : extractSource source = .ok (fm, body))
    (hp : env.parseToml fm = some tbl)
    (hm : mergeManifest tbl = .ok m)
    (hb : (env.compile m body).artifact = some bytes) :
    populate_cache env store cache_key source =
      (write_by_key (writeHash store (env.compile m body).log) cache_key
         ⟨contentId (env.compile m body).log, invokerCode (env.compile m body).status⟩ bytes,
       1, .ok bytes) := by
  simp only [populate_cache, hx, hp, hm, hb]

/-- C2: on a cache hit whose entry has `exit_code != 0`, the program reads
the log blob referenced by `output_id`, writes those bytes verbatim to the
error stream and terminates immediately with the stored exit code — the
store is untouched, no compiler is spawned and no artifact is executed. -/
theorem c2_replay_failure (env : BuildEnv) (store : Store) (source : List Char)
    (r : CacheRec) (build_output : List Nat)
    (h1 : store.byKey (get_key source) = some r)
    (h2 : r.meta.exit_code ≠ 0)
    (h3 : readStore store r.meta.output_id = some build_output) :
    main_once env store source = ⟨store, 0, .replayFailure build_output r.meta.exit_code⟩ := by
  simp only [main_once, h1, if_neg h2, h3]

/-- A store holding a failed cache entry everywhere, used as the C2 witness
instance. -/
def storeHit7 : Store := ⟨fun _ => some ⟨⟨('i' :: 'd' :: []), 7⟩, logErr⟩, fun _ => none⟩

/-- Witness for C2 at a concrete store and source. -/
theorem c2_witness :
    main_once envOk storeHit7 (srcPlain.toList) = ⟨storeHit7, 0, .replayFailure logErr 7⟩ :=
  c2_replay_failure envOk storeHit7 (srcPlain.toList) ⟨⟨('i' :: 'd' :: []), 7⟩, logErr⟩
    logErr rfl (by decide) rfl

/-- C4: after the compiler terminates, `populate_cache` reads the expected
build-output location unconditionally — whenever bytes are present there they
are committed under the fingerprint key with metadata
`{output_id, exit_code}` regardless of the exit status, and whenever the
location is empty the call fails with the artifact-missing error. -/
theorem c4_unconditional_commit (env : BuildEnv) (store : Store)
    (cache_key source fm body : List Char) (tbl m : List (String × Toml))
    (hx : extractSource source = .ok (fm, body))
    (hp : env.parseToml fm = some tbl)
    (hm : mergeManifest tbl = .ok m) :
    (∀ bytes, (env.compile m body).artifact = some bytes →
       (populate_cache env store cache_key source).1.byKey cache_key =
         some ⟨⟨contentId (env.compile m body).log, invokerCode (env.compile m body).status⟩,
               bytes⟩ ∧
       (populate_cache env store cache_key source).2.2 = .ok bytes) ∧
    ((env.compile m body).artifact = none →
       (populate_cache env store cache_key source).2.2 = .error .buildArtifactMissing) := by
  constructor
  · intro bytes hb
    rw [populate_cache_commit env store cache_key source fm body tbl m bytes hx hp hm hb]
    constructor
    · simp [write_by_key]
    · rfl
  · intro hb
    rw [populate_cache_missing env store cache_key source fm body tbl m hx hp hm hb]

/-- The manifest the merge produces from an empty frontmatter. -/
def mFixed : List (String × Toml) :=
  [(pkgKey, .table [(nameKey, .str binName), (versionKey, .str binVersion),
                    (editionKey, .str binEdition)])]

/-- Witness for C4: a successful build commits the artifact bytes under the
key with the log's content id and exit code 0; a failed build with no
artifact yields the artifact-missing error. -/
theorem c4_witness :
    ((populate_cache envOk emptyStore [] (srcPlain.toList)).1.byKey [] =
       some ⟨⟨contentId logOk, invokerCode (some (.Exited 0))⟩, artifactOk⟩ ∧
     (populate_cache envOk emptyStore [] (srcPlain.toList)).2.2 = .ok artifactOk) ∧
    (populate_cache envFail emptyStore [] (srcBroken.toList)).2.2 =
      .error .buildArtifactMissing := by
  constructor
  · exact (c4_unconditional_commit envOk emptyStore [] (srcPlain.toList) []
      (srcPlain.toList) [] mFixed rfl rfl rfl).1 artifactOk rfl
  · exact (c4_unconditional_commit envFail emptyStore [] (srcBroken.toList) []
      (srcBroken.toList) [] mFixed rfl rfl rfl).2 rfl

/-- C5: when the build-output file is missing after the compiler has run, no
cache entry is committed under the fingerprint key, even though the captured
log blob has already been committed by content hash; the run ends in the
artifact-missing error, and the next invocation with the same source is a
cache miss that spawns the compiler again. -/
theorem c5_no_key_commit_on_error (env : BuildEnv) (store : Store)
    (source fm body : List Char) (tbl m : List (String × Toml))
    (h0 : store.byKey (get_key source) = none)
    (hx : extractSource source = .ok (fm, body))
    (hp : env.parseToml fm = some tbl)
    (hm : mergeManifest tbl = .ok m)
    (hb : (env.compile m body).artifact = none) :
    (main_once env store source).outcome = .fatal .buildArtifactMissing ∧
    (main_once env store source).store.byKey (get_key source) = none ∧
    (main_once env store source).store.byHash (contentId (env.compile m body).log) =
      some (env.compile m body).log ∧
    (main_once env store source).spawns = 1 ∧
    (main_once env (main_once env store source).store source).spawns = 1 := by
  have hpc := populate_cache_missing env store (get_key source) source fm body tbl m hx hp hm hb
  have hrun : main_once env store source =
      ⟨writeHash store (env.compile m body).log, 1, .fatal .buildArtifactMissing⟩ := by
    simp only [main_once, h0, hpc]
  rw [hrun]
  refine ⟨rfl, h0, ?_, rfl, ?_⟩
  · simp [writeHash]
  · have h0w : (writeHash store (env.compile m body).log).byKey (get_key source) = none := h0
    have hpc2 := populate_cache_missing env (writeHash store (env.compile m body).log)
      (get_key source) source fm body tbl m hx hp hm hb
    simp only [main_once, h0w, hpc2]

/-- Witness for C5 at a concrete failed build. -/
theorem c5_witness :
    (main_once envFail emptyStore (srcPlain.toList)).outcome = .fatal .buildArtifactMissing ∧
    (main_once envFail emptyStore (srcPlain.toList)).store.byKey
      (get_key (srcPlain.toList)) = none ∧
    (main_once envFail emptyStore (srcPlain.toList)).store.byHash (contentId logErr) =
      some logErr ∧
    (main_once envFail emptyStore (srcPlain.toList)).spawns = 1 ∧
    (main_once envFail (main_once envFail emptyStore (srcPlain.toList)).store
      (srcPlain.toList)).spawns = 1 :=
  c5_no_key_commit_on_error envFail emptyStore (srcPlain.toList) [] (srcPlain.toList)
    [] mFixed rfl rfl rfl rfl rfl

/-- C3 counterexample: a raw input whose frontmatter open delimiter is never
closed spawns the compiler zero times across two runs against an initially
empty cache (the first run dies in extraction, before the compiler), not
exactly once as claimed. -/
theorem c3_counterexample :
    (main_once envOk emptyStore (srcNoClose.toList)).spawns +
      (main_once envOk (main_once envOk emptyStore (srcNoClose.toList)).store
        (srcNoClose.toList)).spawns ≠ 1 ∧
    (main_once envOk emptyStore (srcNoClose.toList)).outcome = .fatal .frontmatterEOF := by
  exact ⟨by decide, rfl⟩

/-- C3 (amended): for every raw input whose miss-path build succeeds
end-to-end (extraction, manifest parse and merge succeed, and the compiler
leaves an artifact at the expected output path), running it twice against an
initially empty cache spawns the compiler exactly once: the first run
builds and commits the fingerprint entry, and the second run takes the
cache-hit path with zero spawns. -/
theorem c3_amended (env : BuildEnv) (source fm body : List Char)
    (tbl m : List (String × Toml)) (bytes : List Nat)
    (hx : extractSource source = .ok (fm, body))
    (hp : env.parseToml fm = some tbl)
    (hm : mergeManifest tbl = .ok m)
    (hb : (env.compile m body).artifact = some bytes) :
    (main_once env emptyStore source).spawns = 1 ∧
    (main_once env emptyStore source).store.byKey (get_key source) ≠ none ∧
    (main_once env (main_once env emptyStore source).store source).spawns = 0 := by
  have hpc := populate_cache_commit env emptyStore (get_key source) source fm body tbl m
    bytes hx hp hm hb
  have h0 : emptyStore.byKey (get_key source) = none := rfl
  have hrun : main_once env emptyStore source =
      ⟨write_by_key (writeHash emptyStore (env.compile m body).log) (get_key source)
         ⟨contentId (env.compile m body).log, invokerCode (env.compile m body).status⟩ bytes,
       1, .execFresh bytes⟩ := by
    simp only [main_once, h0, hpc]
  rw [hrun]
  have hhit : (write_by_key (writeHash emptyStore (env.compile m body).log) (get_key source)
      ⟨contentId (env.compile m body).log, invokerCode (env.compile m body).status⟩
      bytes).byKey (get_key source) =
      some ⟨⟨contentId (env.compile m body).log, invokerCode (env.compile m body).status⟩,
            bytes⟩ := by
    simp [write_by_key]
  refine ⟨rfl, ?_, ?_⟩
  · rw [hhit]
    simp
  · simp only [main_once, hhit]
    split
    · rfl
    · split
      · rfl
      · rfl

/-- Witness for C3 (amended) at a concrete environment and script. -/
theorem c3_amended_witness :
    (main_once envOk emptyStore (srcPlain.toList)).spawns = 1 ∧
    (main_once envOk emptyStore (srcPlain.toList)).store.byKey
      (get_key (srcPlain.toList)) ≠ none ∧
    (main_once envOk (main_once envOk emptyStore (srcPlain.toList)).store
      (srcPlain.toList)).spawns = 0 :=
  c3_amended envOk (srcPlain.toList) [] (srcPlain.toList) [] mFixed artifactOk
    rfl rfl rfl rfl

/-- C1 (evaluated at the failing input): a script whose build fails producing
no artifact makes the first run die with the artifact-missing tool error —
it neither emits the captured diagnostics on the failure-replay path nor
exits with the compiler's code — no fingerprint entry is committed, and the
second run spawns the compiler again instead of replaying, ending the same
way. -/
theorem c1_failed_build_eval :
    (main_once envFail emptyStore (srcBroken.toList)).outcome =
      .fatal .buildArtifactMissing ∧
    (main_once envFail emptyStore (srcBroken.toList)).spawns = 1 ∧
    (main_once envFail emptyStore (srcBroken.toList)).store.byKey
      (get_key (srcBroken.toList)) = none ∧
    (main_once envFail (main_once envFail emptyStore (srcBroken.toList)).store
      (srcBroken.toList)).spawns = 1 ∧
    (main_once envFail (main_once envFail emptyStore (srcBroken.toList)).store
      (srcBroken.toList)).outcome = .fatal .buildArtifactMissing := by
  exact ⟨rfl, rfl, rfl, rfl, rfl⟩

theorem firstOccur_le_length (pat : List Char) (hne : pat ≠ []) :
    ∀ l i, firstOccur pat l = some i → i ≤ l.length := by
  intro l
  induction l with
  | nil =>
    intro i h
    simp only [firstOccur, if_neg hne] at h
    exact absurd h (by simp)
  | cons c cs ih =>
    intro i h
    simp only [firstOccur] at h
    by_cases hp : hasPre pat (c :: cs) = true
    · rw [if_pos hp] at h
      simp at h
      omega
    · rw [if_neg hp] at h
      cases hfo : firstOccur pat cs with
      | none => rw [hfo] at h; exact absurd h (by simp)
      | some j =>
        rw [hfo] at h
        simp at h
        have := ih j hfo
        simp
        omega

/-- C6 counterexample: in the input `+++\n+++\nrest` the line immediately
after the open delimiter line consists solely of `+++` — a matching close
delimiter exists before end of input — yet the program raises the
frontmatter error, because it only recognizes a close delimiter preceded by
a newline and followed by one (`find("\n+++\n")` from position 4). -/
theorem c6_counterexample :
    extractSource (srcEmptyFm.toList) = .error .frontmatterEOF ∧
    stripShebang (srcEmptyFm.toList) = .ok (srcEmptyFm.toList) ∧
    hasPre openDelim (srcEmptyFm.toList) = true ∧
    ('+' :: '+' :: '+' :: []) ∈ linesOf ((srcEmptyFm.toList).drop 4) := by
  refine ⟨rfl, rfl, rfl, ?_⟩
  decide

/-- C6 (amended): after the shebang stage (which discards the raw input up
to and including its first newline when the trimmed input starts with `#!`,
re-trims, and panics when the raw input has no newline), frontmatter
splitting behaves as follows.  If the text does not begin with the open
delimiter line `+++\n`, the whole text is the body and the mapping is empty.
If it does, the frontmatter error is raised if and only if the five
characters `\n+++\n` occur nowhere in the remainder — so a close line
immediately after the open line, or one ending the input without a trailing
newline, is not recognized — and on success the remainder decomposes as
`frontmatter ++ "\n+++\n" ++ body` at the first such occurrence. -/
theorem c6_amended (source trimmed : List Char)
    (hs : stripShebang source = .ok trimmed) :
    (hasPre openDelim trimmed = false → extractSource source = .ok ([], trimmed)) ∧
    (hasPre openDelim trimmed = true →
      (extractSource source = .error .frontmatterEOF ↔
        firstOccur closeDelim (trimmed.drop 4) = none) ∧
      (firstOccur closeDelim (trimmed.drop 4) = none →
        ∀ j, hasPre closeDelim ((trimmed.drop 4).drop j) = false) ∧
      (∀ fm body, extractSource source = .ok (fm, body) →
        trimmed.drop 4 = fm ++ closeDelim ++ body ∧
        (∀ j, j < fm.length → hasPre closeDelim ((trimmed.drop 4).drop j) = false))) := by
  have hext : extractSource source = splitFrontmatter trimmed := by
    simp only [extractSource, hs]
  constructor
  · intro hnp
    rw [hext]
    simp only [splitFrontmatter, hnp]
    simp
  · intro hp
    refine ⟨?_, ?_, ?_⟩
    · rw [hext]
      simp only [splitFrontmatter, hp, if_true]
      cases hfo : firstOccur closeDelim (trimmed.drop 4) with
      | none => simp
      | some i => simp
    · intro hfo j
      exact firstOccur_none closeDelim (trimmed.drop 4) hfo j
    · intro fm body hok
      rw [hext] at hok
      simp only [splitFrontmatter, hp, if_true] at hok
      cases hfo : firstOccur closeDelim (trimmed.drop 4) with
      | none => rw [hfo] at hok; exact absurd hok (by simp)
      | some i =>
        rw [hfo] at hok
        simp only [Except.ok.injEq, Prod.mk.injEq] at hok
        obtain ⟨hfm, hbody⟩ := hok
        have hlen : i ≤ (trimmed.drop 4).length :=
          firstOccur_le_length closeDelim (by decide) (trimmed.drop 4) i hfo
        have hfmlen : fm.length = i := by
          rw [← hfm]
          simp only [List.length_take, List.length_drop]
          simp only [List.length_drop] at hlen
          omega
        constructor
        · rw [← hfm, ← hbody]
          have := firstOccur_decomp closeDelim (trimmed.drop 4) i hfo
          calc trimmed.drop 4
              = (trimmed.drop 4).take i ++ closeDelim ++ (trimmed.drop 4).drop (i + 5) := by
                rw [show (5 : Nat) = closeDelim.length from rfl]
                exact (firstOccur_decomp closeDelim (trimmed.drop 4) i hfo).symm
            _ = _ := rfl
        · intro j hj
          rw [hfmlen] at hj
          exact firstOccur_min closeDelim (trimmed.drop 4) i hfo j hj

/-- A concrete script with shebang and frontmatter used as the C6 witness. -/
def srcFull : String := "#!/x\n+++\na = 1\n+++\nbody"

/-- The shebang-stripped text of `srcFull`. -/
def trimmedFull : List Char := ("+++\na = 1\n+++\nbody").toList

/-- Witness for C6 (amended): on `srcFull` the remainder after the open
delimiter decomposes at the first `\n+++\n` into the frontmatter `a = 1`
and the body `body`, and no earlier occurrence exists. -/
theorem c6_amended_witness :
    trimmedFull.drop 4 = (("a = 1").toList) ++ closeDelim ++ (("body").toList) ∧
    (∀ j, j < (("a = 1").toList).length →
      hasPre closeDelim ((trimmedFull.drop 4).drop j) = false) :=
  (((c6_amended (srcFull.toList) trimmedFull rfl).2 rfl).2.2
    (("a = 1").toList) (("body").toList) rfl)

/-- Two scripts differing only in their shebang line. -/
def srcShebangA : String := "#!/usr/bin/env clawbang\nfn main()"

/-- Like `srcShebangA` with a different shebang line and identical remainder. -/
def srcShebangB : String := "#!/usr/bin/env clawbeta\nfn main()"

/-- C8: the fingerprint is the digest of the raw input bytes with no
normalization — `get_key` factors through the raw bytes alone — and the two
concrete scripts differing only in their shebang line, although they extract
to identical build inputs, have different fingerprints and hence independent
cache entries (a commit under one key leaves the other key absent). -/
theorem c8_fingerprint :
    (∀ s : List Char, get_key s = hexEncode (sha256 (utf8Encode s))) ∧
    srcShebangA.toList ≠ srcShebangB.toList ∧
    afterFirstNewline (srcShebangA.toList) = afterFirstNewline (srcShebangB.toList) ∧
    extractSource (srcShebangA.toList) = extractSource (srcShebangB.toList) ∧
    get_key (srcShebangA.toList) ≠ get_key (srcShebangB.toList) ∧
    (write_by_key emptyStore (get_key (srcShebangA.toList)) ⟨[], 0⟩ artifactOk).byKey
      (get_key (srcShebangB.toList)) = none := by
  refine ⟨fun s => rfl, by decide, rfl, rfl, by decide, ?_⟩
  simp only [write_by_key, emptyStore]
  rw [if_neg (by decide)]

